import Mathlib

set_option maxRecDepth 16384

/-!
# Verification of the ec2pricing resolution and caching pipeline

This file gives a shallow embedding, in Lean 4, of `ec2_price.go` from the
`davent/ec2pricing` repository, and proves (or refutes) the frozen claims
about its specification.

Modelling choices, stated once:

* Go `map[string]T` values are embedded as association lists
  `List (String × T)`; Go's indexing-with-zero-value (`m[k]` on a missing key
  yields the zero value, and indexing a `nil` map yields nothing to iterate)
  is embedded by `assocGet` returning `Option` plus explicit defaulting.
  Go map iteration order is unspecified; the association-list order is the
  iteration order of the model.
* The filesystem cache (`/tmp/.aws_pricing`) is embedded as an explicit
  `Store` value: an association list from file path to `FileData`
  (byte contents plus a modification timestamp in whole seconds).
  `os.Stat`/`ioutil.ReadFile` on an existing entry succeed in the model;
  disk I/O faults are outside the claims under verification.
  `ioutil.WriteFile` is `storeWrite` (create-or-overwrite, refreshing the
  modification time to the current time).
* Time is a `Nat` of seconds. `time.Since(mod).Seconds() < MAX_CACHE_AGE`
  becomes `now - modTime < MAX_CACHE_AGE` (truncated subtraction; a
  modification time in the future counts as fresh, as in the source).
* `float64` values are embedded by their IEEE-754 bit patterns, i.e. natural
  numbers below 2^64.  `binary.Write`/`binary.Read` with `binary.LittleEndian`
  move those bits verbatim to and from bytes, so the embedding of the cache
  blob encoding is exact at the bit level.  `strconv.ParseFloat` is an
  external collaborator and is embedded as an environment parameter
  `parseFloat : String → Option (Fin 2^64)` returning the bit pattern of the
  parsed value, or `none` on a parse failure.
* `http.Get` + `ioutil.ReadAll` of the fixed URL are embedded as an
  environment field `fetchResult : Option (List Nat)` (`none` is a transport
  failure), and `json.Unmarshal` as `decode : List Nat → Option Offer`
  (`none` is a decode failure).  An effect counter in each result record
  reports how many network fetches (and decode attempts / resolution scans)
  the call performed.
* `log.Fatalf` terminates the process; it is embedded as a distinguished
  `Outcome.fatal` result, distinct from an ordinary error return
  `Outcome.error`.
* `crypto/md5` + `encoding/hex` are embedded by a full executable MD5
  implementation over byte lists (RFC 1321) followed by lowercase hex
  encoding, applied to the UTF-8 bytes of the input string, mirroring
  `GetMD5Hash` in the source.
-/

namespace EC2Pricing

/-! ## Association lists (embedding of Go maps and of the on-disk store) -/

def assocGet {α : Type} (m : List (String × α)) (k : String) : Option α :=
  match m with
  | [] => none
  | (k', v) :: rest => if k' = k then some v else assocGet rest k

/-- Go map indexing on a `map[string]string`: missing keys yield `""`. -/
def attrGet (m : List (String × String)) (k : String) : String :=
  (assocGet m k).getD ""

structure FileData where
  bytes : List Nat
  modTime : Nat
deriving DecidableEq, Repr

abbrev Store : Type := List (String × FileData)

/-- `ioutil.WriteFile`: create-or-overwrite under a key. -/
def storeWrite (s : Store) (k : String) (d : FileData) : Store :=
  match s with
  | [] => [(k, d)]
  | (k', d') :: rest => if k' = k then (k, d) :: rest else (k', d') :: storeWrite rest k d

/-! ## Little-endian byte encoding of 64-bit values

`binary.Write(buf, binary.LittleEndian, price_f)` emits exactly the 8
little-endian bytes of the float64 bit pattern; `binary.Read` consumes
exactly 8 bytes (erroring if fewer are available, ignoring any excess). -/

def toLEBytes (n : Nat) : List Nat :=
  [n % 256, n / 256 % 256, n / 65536 % 256, n / 16777216 % 256,
   n / 4294967296 % 256, n / 1099511627776 % 256,
   n / 281474976710656 % 256, n / 72057594037927936 % 256]

def fromLEBytes : List Nat → Nat
  | [] => 0
  | b :: rest => b + 256 * fromLEBytes rest

/-- `binary.Read(bytes.NewReader body, binary.LittleEndian, &price_f)`:
needs at least 8 bytes, reads the first 8 as a little-endian 64-bit value. -/
def binaryReadFloat64 (body : List Nat) : Except Unit Nat :=
  if 8 ≤ body.length then .ok (fromLEBytes (body.take 8)) else .error ()

/-! ## MD5 (embedding of `crypto/md5` + `encoding/hex`, RFC 1321) -/

def charUtf8 (c : Char) : List Nat :=
  let n := c.toNat
  if n < 128 then [n]
  else if n < 2048 then [192 ||| (n >>> 6), 128 ||| (n &&& 63)]
  else if n < 65536 then
    [224 ||| (n >>> 12), 128 ||| ((n >>> 6) &&& 63), 128 ||| (n &&& 63)]
  else
    [240 ||| (n >>> 18), 128 ||| ((n >>> 12) &&& 63),
     128 ||| ((n >>> 6) &&& 63), 128 ||| (n &&& 63)]

def utf8Bytes (s : String) : List Nat :=
  (s.data.map charUtf8).foldr (· ++ ·) []

/-- Per-operation 32-bit additive constants `K[i] = ⌊2^32·|sin(i+1)|⌋`. -/
def md5K : List Nat :=
  [0xd76aa478, 0xe8c7b756, 0x242070db, 0xc1bdceee,
   0xf57c0faf, 0x4787c62a, 0xa8304613, 0xfd469501,
   0x698098d8, 0x8b44f7af, 0xffff5bb1, 0x895cd7be,
   0x6b901122, 0xfd987193, 0xa679438e, 0x49b40821,
   0xf61e2562, 0xc040b340, 0x265e5a51, 0xe9b6c7aa,
   0xd62f105d, 0x02441453, 0xd8a1e681, 0xe7d3fbc8,
   0x21e1cde6, 0xc33707d6, 0xf4d50d87, 0x455a14ed,
   0xa9e3e905, 0xfcefa3f8, 0x676f02d9, 0x8d2a4c8a,
   0xfffa3942, 0x8771f681, 0x6d9d6122, 0xfde5380c,
   0xa4beea44, 0x4bdecfa9, 0xf6bb4b60, 0xbebfbc70,
   0x289b7ec6, 0xeaa127fa, 0xd4ef3085, 0x04881d05,
   0xd9d4d039, 0xe6db99e5, 0x1fa27cf8, 0xc4ac5665,
   0xf4292244, 0x432aff97, 0xab9423a7, 0xfc93a039,
   0x655b59c3, 0x8f0ccc92, 0xffeff47d, 0x85845dd1,
   0x6fa87e4f, 0xfe2ce6e0, 0xa3014314, 0x4e0811a1,
   0xf7537e82, 0xbd3af235, 0x2ad7d2bb, 0xeb86d391]

/-- Per-operation left-rotation amounts. -/
def md5S : List Nat :=
  [7, 12, 17, 22, 7, 12, 17, 22, 7, 12, 17, 22, 7, 12, 17, 22,
   5, 9, 14, 20, 5, 9, 14, 20, 5, 9, 14, 20, 5, 9, 14, 20,
   4, 11, 16, 23, 4, 11, 16, 23, 4, 11, 16, 23, 4, 11, 16, 23,
   6, 10, 15, 21, 6, 10, 15, 21, 6, 10, 15, 21, 6, 10, 15, 21]

def w32not (b : Nat) : Nat := 4294967295 - b % 4294967296

def rotl32 (x s : Nat) : Nat :=
  ((x % 4294967296) <<< s) % 4294967296 ||| (x % 4294967296) >>> (32 - s)

def byteAt (l : List Nat) (i : Nat) : Nat := l.getD i 0

/-- The `g`-th little-endian 32-bit word of a 64-byte chunk. -/
def word32At (chunk : List Nat) (g : Nat) : Nat :=
  byteAt chunk (4 * g) + 256 * byteAt chunk (4 * g + 1) +
    65536 * byteAt chunk (4 * g + 2) + 16777216 * byteAt chunk (4 * g + 3)

def MD5State : Type := Nat × Nat × Nat × Nat

def md5Step (chunk : List Nat) (st : MD5State) (i : Nat) : MD5State :=
  let (a, b, c, d) := st
  let fg : Nat × Nat :=
    if i < 16 then ((b &&& c) ||| (w32not b &&& d), i)
    else if i < 32 then ((d &&& b) ||| (w32not d &&& c), (5 * i + 1) % 16)
    else if i < 48 then (b ^^^ c ^^^ d, (3 * i + 5) % 16)
    else (c ^^^ (b ||| w32not d), 7 * i % 16)
  let f := (fg.1 + a + md5K.getD i 0 + word32At chunk fg.2) % 4294967296
  (d, (b + rotl32 f (md5S.getD i 0)) % 4294967296, b, c)

def md5Chunk (st : MD5State) (chunk : List Nat) : MD5State :=
  let r := (List.range 64).foldl (md5Step chunk) st
  ((st.1 + r.1) % 4294967296, (st.2.1 + r.2.1) % 4294967296,
   (st.2.2.1 + r.2.2.1) % 4294967296, (st.2.2.2 + r.2.2.2) % 4294967296)

def md5InitState : MD5State := (0x67452301, 0xefcdab89, 0x98badcfe, 0x10325476)

/-- Pad to a multiple of 64 bytes: `0x80`, zeros, then the 8-byte
little-endian bit length (mod 2^64, which `toLEBytes` takes implicitly). -/
def md5Pad (msg : List Nat) : List Nat :=
  msg ++ 128 :: List.replicate ((119 - msg.length % 64) % 64) 0 ++
    toLEBytes (8 * msg.length)

def chunksGo (fuel : Nat) (l : List Nat) : List (List Nat) :=
  match fuel with
  | 0 => []
  | fuel + 1 =>
    match l with
    | [] => []
    | b :: rest => ((b :: rest).take 64) :: chunksGo fuel ((b :: rest).drop 64)

def chunks64 (l : List Nat) : List (List Nat) := chunksGo l.length l

def toLE4 (n : Nat) : List Nat :=
  [n % 256, n / 256 % 256, n / 65536 % 256, n / 16777216 % 256]

def md5Digest (st : MD5State) : List Nat :=
  toLE4 st.1 ++ toLE4 st.2.1 ++ toLE4 st.2.2.1 ++ toLE4 st.2.2.2

def md5Bytes (msg : List Nat) : List Nat :=
  md5Digest ((chunks64 (md5Pad msg)).foldl md5Chunk md5InitState)

def hexDigit (n : Nat) : Char :=
  if n < 10 then Char.ofNat (48 + n) else Char.ofNat (87 + n)

def hexEncodeList : List Nat → List Char
  | [] => []
  | b :: rest => hexDigit (b / 16) :: hexDigit (b % 16) :: hexEncodeList rest

/-- `GetMD5Hash(text)`: lowercase hex of the MD5 digest of the text's bytes. -/
def GetMD5Hash (text : String) : String :=
  String.mk (hexEncodeList (md5Bytes (utf8Bytes text)))

/-! ## Constants of the source file -/

def URL : String :=
  "https://pricing.us-east-1.amazonaws.com/offers/v1.0/aws/AmazonEC2/current/index.json"

def CACHE_DIR : String := "/tmp/.aws_pricing"

def MAX_CACHE_AGE : Nat := 86400

def AWS_LOCATION : String := "US West (Oregon)"

/-! ## Data model (the decoded catalog) -/

structure Product where
  SKU : String := ""
  ProductFamily : String := ""
  Attributes : List (String × String) := []
deriving DecidableEq, Repr

structure PriceDimension where
  Description : String := ""
  Unit : String := ""
  StartingRange : String := ""
  EndingRange : String := ""
  PricePerUnit : List (String × String) := []
deriving DecidableEq, Repr

structure Term where
  OfferTermCode : String := ""
  SKU : String := ""
  EffectiveDate : String := ""
  TermAttributesType : String := ""
  TermAttributes : List (String × String) := []
  PriceDimensions : List (String × PriceDimension) := []
deriving DecidableEq, Repr

structure Offer where
  FormatVersion : String := ""
  Disclaimer : String := ""
  OfferCode : String := ""
  Version : String := ""
  PublicationDate : String := ""
  Products : List (String × Product) := []
  Terms : List (String × List (String × List (String × Term))) := []
deriving DecidableEq, Repr

structure Price where
  Currency : String
  Value : String
deriving DecidableEq, Repr

/-- The distinct failure conditions of the pipeline. -/
inductive Err where
  | fetchFailed
  | malformedCatalog
  | ambiguousMatch
  | priceNotFound
  | invalidPriceFormat
  | readFailed
deriving DecidableEq, Repr

/-! ## Entry resolution (`GetSKU`, `GetPrice`) -/

/-- The four-way attribute conjunction of the `GetSKU` scan. -/
def productMatches (instance_type tenancy os : String) (product : Product) : Bool :=
  (attrGet product.Attributes "instanceType" == instance_type) &&
    (attrGet product.Attributes "location" == AWS_LOCATION) &&
    (attrGet product.Attributes "tenancy" == tenancy) &&
    (attrGet product.Attributes "operatingSystem" == os)

/-- The `for _, product := range o.Products` loop of `GetSKU`, with the
`sku` accumulator. -/
def skuLoop (instance_type tenancy os : String)
    (products : List (String × Product)) (sku : String) : Except Err String :=
  match products with
  | [] => .ok sku
  | (_, product) :: rest =>
    if productMatches instance_type tenancy os product then
      if sku ≠ "" then .error .ambiguousMatch
      else skuLoop instance_type tenancy os rest product.SKU
    else skuLoop instance_type tenancy os rest sku

def Offer.GetSKU (o : Offer) (instance_type tenancy os : String) :
    Except Err String :=
  skuLoop instance_type tenancy os o.Products ""

/-- `o.Terms[term][sku]`: Go indexing of nested maps, where a missing key
yields a `nil` map with nothing to iterate over. -/
def termsFor (o : Offer) (term sku : String) : List (String × Term) :=
  match assocGet o.Terms term with
  | none => []
  | some m =>
    match assocGet m sku with
    | none => []
    | some m2 => m2

def firstPairPrice (ppu : List (String × String)) : Option Price :=
  match ppu with
  | [] => none
  | (currency, value) :: _ => some ⟨currency, value⟩

def firstDimPrice (dims : List (String × PriceDimension)) : Option Price :=
  match dims with
  | [] => none
  | (_, pd) :: rest =>
    match firstPairPrice pd.PricePerUnit with
    | some p => some p
    | none => firstDimPrice rest

def firstTermPrice (terms : List (String × Term)) : Option Price :=
  match terms with
  | [] => none
  | (_, t) :: rest =>
    match firstDimPrice t.PriceDimensions with
    | some p => some p
    | none => firstTermPrice rest

def Offer.GetPrice (o : Offer) (sku term : String) : Except Err Price :=
  match firstTermPrice (termsFor o term sku) with
  | some price => .ok price
  | none => .error .priceNotFound

/-! ## Catalog fetching (`GetOffers`) -/

/-- The external collaborators of `GetOffers`: the HTTP transport for the
fixed URL and the JSON decoder. -/
structure FetchEnv where
  fetchResult : Option (List Nat)
  decode : List Nat → Option Offer

structure OffersOut where
  result : Except Err Offer
  store : Store
  fetchCount : Nat
  decodeCount : Nat

def offersFile : String := CACHE_DIR ++ "/offers"

/-- Case split of the `json.Unmarshal` outcome (`s2` is the store after the
unconditional `ioutil.WriteFile`). -/
def GetOffersDecoded (dec : Option Offer) (s2 : Store) (fc : Nat) : OffersOut :=
  match dec with
  | some offer => ⟨.ok offer, s2, fc, 1⟩
  | none => ⟨.error .malformedCatalog, s2, fc, 1⟩

/-- The tail of `GetOffers` shared by both branches of its if/else: the
unconditional `ioutil.WriteFile` followed by `json.Unmarshal`. -/
def GetOffersFinish (env : FetchEnv) (now : Nat) (s : Store)
    (body : List Nat) (fc : Nat) : OffersOut :=
  GetOffersDecoded (env.decode body) (storeWrite s offersFile ⟨body, now⟩) fc

def GetOffers (env : FetchEnv) (now : Nat) (s : Store) : OffersOut :=
  match assocGet s offersFile with
  | some fd =>
    if now - fd.modTime < MAX_CACHE_AGE then
      GetOffersFinish env now s fd.bytes 0
    else
      match env.fetchResult with
      | none => ⟨.error .fetchFailed, s, 1, 0⟩
      | some body => GetOffersFinish env now s body 1
  | none =>
    match env.fetchResult with
    | none => ⟨.error .fetchFailed, s, 1, 0⟩
    | some body => GetOffersFinish env now s body 1

/-! ## The price query cache (`GetEC2Price`) -/

structure PriceEnv extends FetchEnv where
  parseFloat : String → Option (Fin 18446744073709551616)

/-- `log.Fatalf` inside `GetEC2Price` terminates the process; `fatal` is
distinct from an `error` return to the caller. -/
inductive Outcome where
  | ok (price : Nat)
  | error (e : Err)
  | fatal (e : Err)
deriving DecidableEq, Repr

structure PriceOut where
  result : Outcome
  store : Store
  fetchCount : Nat
  decodeCount : Nat
  scanCount : Nat

/-- The per-query cache file path of line 106 of the source:
`CACHE_DIR + "/" + GetMD5Hash(instance_type+tenancy+operating_system+term)`. -/
def cacheFile (instance_type tenancy operating_system term : String) : String :=
  CACHE_DIR ++ "/" ++ GetMD5Hash (instance_type ++ tenancy ++ operating_system ++ term)

/-- The continuation of the cache-miss branch of `GetEC2Price` after
`GetOffers` has produced its result `out`. -/
def GetEC2PriceMissWith (env : PriceEnv) (now : Nat)
    (instance_type tenancy operating_system term : String) (out : OffersOut) :
    PriceOut :=
  match out.result with
  | .error e => ⟨.fatal e, out.store, out.fetchCount, out.decodeCount, 0⟩
  | .ok offer =>
    match offer.GetSKU instance_type tenancy operating_system with
    | .error e => ⟨.error e, out.store, out.fetchCount, out.decodeCount, 1⟩
    | .ok sku =>
      match offer.GetPrice sku term with
      | .error e => ⟨.error e, out.store, out.fetchCount, out.decodeCount, 1⟩
      | .ok price =>
        match env.parseFloat price.Value with
        | none =>
          ⟨.error .invalidPriceFormat, out.store, out.fetchCount, out.decodeCount, 1⟩
        | some price_f =>
          ⟨.ok price_f.val,
           storeWrite out.store
             (cacheFile instance_type tenancy operating_system term)
             ⟨toLEBytes price_f.val, now⟩,
           out.fetchCount, out.decodeCount, 1⟩

/-- The `else` (cache-miss) branch of `GetEC2Price`. -/
def GetEC2PriceMiss (env : PriceEnv) (now : Nat) (s : Store)
    (instance_type tenancy operating_system term : String) : PriceOut :=
  GetEC2PriceMissWith env now instance_type tenancy operating_system term
    (GetOffers env.toFetchEnv now s)

def GetEC2Price (env : PriceEnv) (now : Nat) (s : Store)
    (instance_type tenancy operating_system term : String) : PriceOut :=
  match assocGet s (cacheFile instance_type tenancy operating_system term) with
  | some fd =>
    if now - fd.modTime < MAX_CACHE_AGE then
      match binaryReadFloat64 fd.bytes with
      | .ok v => ⟨.ok v, s, 0, 0, 0⟩
      | .error _ => ⟨.error .readFailed, s, 0, 0, 0⟩
    else GetEC2PriceMiss env now s instance_type tenancy operating_system term
  | none => GetEC2PriceMiss env now s instance_type tenancy operating_system term

/-- All (currency, price string) pairs reachable under
`Terms[term][sku]`, in iteration order (specification-side definition). -/
def dimsPairs : List (String × PriceDimension) → List (String × String)
  | [] => []
  | (_, pd) :: rest => pd.PricePerUnit ++ dimsPairs rest

def termsPairs : List (String × Term) → List (String × String)
  | [] => []
  | (_, t) :: rest => dimsPairs t.PriceDimensions ++ termsPairs rest

def allPairs (o : Offer) (term sku : String) : List (String × String) :=
  termsPairs (termsFor o term sku)

/-! ## Helper lemmas: the store -/

theorem assocGet_storeWrite_self (s : Store) (k : String) (d : FileData) :
    assocGet (storeWrite s k d) k = some d := by
  induction s with
  | nil => simp [storeWrite, assocGet]
  | cons hd tl ih =>
    obtain ⟨k', d'⟩ := hd
    by_cases h : k' = k
    · simp [storeWrite, assocGet, h]
    · simp [storeWrite, assocGet, h, ih]

theorem assocGet_storeWrite_ne (s : Store) (k k' : String) (d : FileData)
    (h : k' ≠ k) : assocGet (storeWrite s k d) k' = assocGet s k' :=  by
  induction s with
  | nil => simp [storeWrite, assocGet, Ne.symm h]
  | cons hd tl ih =>
    obtain ⟨a, b⟩ := hd
    by_cases ha : a = k
    · subst ha
      simp [storeWrite, assocGet, Ne.symm h]
    · simp [storeWrite, assocGet, ha, ih]

/-! ## Helper lemmas: the little-endian price blob -/

theorem toLEBytes_length (n : Nat) : (toLEBytes n).length = 8 := rfl

theorem fromLEBytes_toLEBytes (n : Nat) (h : n < 18446744073709551616) :
    fromLEBytes (toLEBytes n) = n := by
  simp only [toLEBytes, fromLEBytes]
  omega

theorem binaryReadFloat64_toLEBytes (n : Nat) (h : n < 18446744073709551616) :
    binaryReadFloat64 (toLEBytes n) = .ok n := by
  rw [binaryReadFloat64, if_pos (by rw [toLEBytes_length])]
  rw [show (toLEBytes n).take 8 = toLEBytes n from rfl]
  rw [fromLEBytes_toLEBytes n h]

/-! ## Helper lemmas: key shape -/

theorem hexEncodeList_length (l : List Nat) :
    (hexEncodeList l).length = 2 * l.length := by
  induction l with
  | nil => simp [hexEncodeList]
  | cons b rest ih => simp [hexEncodeList, ih]; omega

theorem md5Digest_length (st : MD5State) : (md5Digest st).length = 16 := by
  simp [md5Digest, toLE4]

theorem GetMD5Hash_length (s : String) : (GetMD5Hash s).length = 32 := by
  have h1 : (GetMD5Hash s).length = (hexEncodeList (md5Bytes (utf8Bytes s))).length := rfl
  rw [h1, hexEncodeList_length, md5Bytes, md5Digest_length]

theorem cacheFile_ne_offersFile (a b c d : String) :
    cacheFile a b c d ≠ offersFile := by
  intro h
  have hl := congrArg String.length h
  have h7 : ("/offers" : String).length = 7 := rfl
  have h1 : ("/" : String).length = 1 := rfl
  rw [cacheFile, offersFile] at hl
  rw [String.length_append, String.length_append, String.length_append] at hl
  rw [GetMD5Hash_length, h7, h1] at hl
  omega

/-- The per-query cache entry is untouched by the unconditional catalog
write inside `GetOffers`. -/
theorem assocGet_GetOffers_store (env : FetchEnv) (now : Nat) (s : Store)
    (a b c d : String) :
    assocGet (GetOffers env now s).store (cacheFile a b c d) =
      assocGet s (cacheFile a b c d) := by
  have hne := cacheFile_ne_offersFile a b c d
  rw [GetOffers]
  cases hs : assocGet s offersFile with
  | some fd =>
    by_cases hf : now - fd.modTime < MAX_CACHE_AGE
    · simp only [hf, if_pos, GetOffersFinish]
      cases env.decode fd.bytes <;>
        simp [GetOffersDecoded, assocGet_storeWrite_ne _ _ _ _ hne]
    · simp only [hf, if_neg, ite_false]
      cases env.fetchResult with
      | none => rfl
      | some body =>
        simp only [GetOffersFinish]
        cases env.decode body <;>
          simp [GetOffersDecoded, assocGet_storeWrite_ne _ _ _ _ hne]
  | none =>
    cases env.fetchResult with
    | none => rfl
    | some body =>
      simp only [GetOffersFinish]
      cases env.decode body <;>
        simp [GetOffersDecoded, assocGet_storeWrite_ne _ _ _ _ hne]

/-! ## Helper lemmas: evaluating the two branches of `GetEC2Price` -/

/-- A fresh, at-least-8-byte cache entry makes `GetEC2Price` a pure read. -/
theorem getEC2Price_hit_eval (env : PriceEnv) (now : Nat) (s : Store)
    (a b c d : String) (blob : List Nat) (mt : Nat)
    (hget : assocGet s (cacheFile a b c d) = some ⟨blob, mt⟩)
    (hfresh : now - mt < MAX_CACHE_AGE)
    (hlen : 8 ≤ blob.length) :
    GetEC2Price env now s a b c d =
      ⟨.ok (fromLEBytes (blob.take 8)), s, 0, 0, 0⟩ := by
  rw [GetEC2Price, hget]
  simp only [hfresh, if_pos]
  rw [binaryReadFloat64, if_pos hlen]

/-- A fresh cache entry of fewer than 8 bytes makes the `binary.Read` of the
hit branch fail, which `GetEC2Price` reports as an error without touching
the store or the network. -/
theorem getEC2Price_hit_short_eval (env : PriceEnv) (now : Nat) (s : Store)
    (a b c d : String) (blob : List Nat) (mt : Nat)
    (hget : assocGet s (cacheFile a b c d) = some ⟨blob, mt⟩)
    (hfresh : now - mt < MAX_CACHE_AGE)
    (hlen : ¬ 8 ≤ blob.length) :
    GetEC2Price env now s a b c d = ⟨.error .readFailed, s, 0, 0, 0⟩ := by
  rw [GetEC2Price, hget]
  simp only [hfresh, if_pos]
  rw [binaryReadFloat64, if_neg hlen]

/-- A missing-or-stale cache entry sends `GetEC2Price` to its miss branch. -/
theorem getEC2Price_miss_eval (env : PriceEnv) (now : Nat) (s : Store)
    (a b c d : String)
    (hmiss : ∀ fd, assocGet s (cacheFile a b c d) = some fd →
      MAX_CACHE_AGE ≤ now - fd.modTime) :
    GetEC2Price env now s a b c d = GetEC2PriceMiss env now s a b c d := by
  rw [GetEC2Price]
  cases hs : assocGet s (cacheFile a b c d) with
  | none => rfl
  | some fd =>
    have := hmiss fd hs
    simp only [if_neg (by omega : ¬ now - fd.modTime < MAX_CACHE_AGE)]

/-! Branch equations for the miss-branch continuation. -/

theorem missWith_fatal (env : PriceEnv) (now : Nat) (a b c d : String)
    (out : OffersOut) (e : Err) (h : out.result = .error e) :
    GetEC2PriceMissWith env now a b c d out =
      ⟨.fatal e, out.store, out.fetchCount, out.decodeCount, 0⟩ := by
  obtain ⟨res, s2, fc, dc⟩ := out
  simp only at h
  subst h
  rfl

theorem missWith_skuErr (env : PriceEnv) (now : Nat) (a b c d : String)
    (out : OffersOut) (offer : Offer) (e : Err)
    (h : out.result = .ok offer) (hsku : offer.GetSKU a b c = .error e) :
    GetEC2PriceMissWith env now a b c d out =
      ⟨.error e, out.store, out.fetchCount, out.decodeCount, 1⟩ := by
  obtain ⟨res, s2, fc, dc⟩ := out
  simp only at h
  subst h
  simp only [GetEC2PriceMissWith, hsku]

theorem missWith_priceErr (env : PriceEnv) (now : Nat) (a b c d : String)
    (out : OffersOut) (offer : Offer) (sku : String) (e : Err)
    (h : out.result = .ok offer) (hsku : offer.GetSKU a b c = .ok sku)
    (hpr : offer.GetPrice sku d = .error e) :
    GetEC2PriceMissWith env now a b c d out =
      ⟨.error e, out.store, out.fetchCount, out.decodeCount, 1⟩ := by
  obtain ⟨res, s2, fc, dc⟩ := out
  simp only at h
  subst h
  simp only [GetEC2PriceMissWith, hsku, hpr]

theorem missWith_parseErr (env : PriceEnv) (now : Nat) (a b c d : String)
    (out : OffersOut) (offer : Offer) (sku : String) (price : Price)
    (h : out.result = .ok offer) (hsku : offer.GetSKU a b c = .ok sku)
    (hpr : offer.GetPrice sku d = .ok price)
    (hpf : env.parseFloat price.Value = none) :
    GetEC2PriceMissWith env now a b c d out =
      ⟨.error .invalidPriceFormat, out.store, out.fetchCount, out.decodeCount, 1⟩ := by
  obtain ⟨res, s2, fc, dc⟩ := out
  simp only at h
  subst h
  simp only [GetEC2PriceMissWith, hsku, hpr, hpf]

theorem missWith_ok (env : PriceEnv) (now : Nat) (a b c d : String)
    (out : OffersOut) (offer : Offer) (sku : String) (price : Price)
    (price_f : Fin 18446744073709551616)
    (h : out.result = .ok offer) (hsku : offer.GetSKU a b c = .ok sku)
    (hpr : offer.GetPrice sku d = .ok price)
    (hpf : env.parseFloat price.Value = some price_f) :
    GetEC2PriceMissWith env now a b c d out =
      ⟨.ok price_f.val,
       storeWrite out.store (cacheFile a b c d) ⟨toLEBytes price_f.val, now⟩,
       out.fetchCount, out.decodeCount, 1⟩ := by
  obtain ⟨res, s2, fc, dc⟩ := out
  simp only at h
  subst h
  simp only [GetEC2PriceMissWith, hsku, hpr, hpf]

/-- On every error-return of the miss branch, the resulting store is
exactly the store left behind by `GetOffers`. -/
theorem getEC2PriceMiss_error_store (env : PriceEnv) (now : Nat) (s : Store)
    (a b c d : String) (e : Err)
    (h : (GetEC2PriceMiss env now s a b c d).result = .error e) :
    (GetEC2PriceMiss env now s a b c d).store =
      (GetOffers env.toFetchEnv now s).store := by
  rw [GetEC2PriceMiss] at h ⊢
  cases hres : (GetOffers env.toFetchEnv now s).result with
  | error e' => rw [missWith_fatal env now a b c d _ e' hres] at h; simp at h
  | ok offer =>
    cases hsku : offer.GetSKU a b c with
    | error e' => rw [missWith_skuErr env now a b c d _ offer e' hres hsku]
    | ok sku =>
      cases hpr : offer.GetPrice sku d with
      | error e' => rw [missWith_priceErr env now a b c d _ offer sku e' hres hsku hpr]
      | ok price =>
        cases hpf : env.parseFloat price.Value with
        | none => rw [missWith_parseErr env now a b c d _ offer sku price hres hsku hpr hpf]
        | some price_f =>
          rw [missWith_ok env now a b c d _ offer sku price price_f hres hsku hpr hpf] at h
          simp at h

/-- A successful miss-branch run leaves, under the query's cache key, a
blob of at least 8 bytes that decodes back to the returned value. -/
theorem getEC2PriceMiss_ok_inv (env : PriceEnv) (now : Nat) (s : Store)
    (a b c d : String) (v : Nat)
    (h : (GetEC2PriceMiss env now s a b c d).result = .ok v) :
    ∃ blob mt,
      assocGet (GetEC2PriceMiss env now s a b c d).store (cacheFile a b c d) =
        some ⟨blob, mt⟩ ∧ 8 ≤ blob.length ∧ fromLEBytes (blob.take 8) = v := by
  rw [GetEC2PriceMiss] at h ⊢
  cases hres : (GetOffers env.toFetchEnv now s).result with
  | error e' => rw [missWith_fatal env now a b c d _ e' hres] at h; simp at h
  | ok offer =>
    cases hsku : offer.GetSKU a b c with
    | error e' =>
      rw [missWith_skuErr env now a b c d _ offer e' hres hsku] at h; simp at h
    | ok sku =>
      cases hpr : offer.GetPrice sku d with
      | error e' =>
        rw [missWith_priceErr env now a b c d _ offer sku e' hres hsku hpr] at h
        simp at h
      | ok price =>
        cases hpf : env.parseFloat price.Value with
        | none =>
          rw [missWith_parseErr env now a b c d _ offer sku price hres hsku hpr hpf] at h
          simp at h
        | some price_f =>
          rw [missWith_ok env now a b c d _ offer sku price price_f hres hsku hpr hpf] at h ⊢
          simp at h
          refine ⟨toLEBytes price_f.val, now, ?_, ?_, ?_⟩
          · simp [assocGet_storeWrite_self]
          · rw [toLEBytes_length]
          · rw [show (toLEBytes price_f.val).take 8 = toLEBytes price_f.val from rfl]
            rw [fromLEBytes_toLEBytes _ price_f.isLt, h]

/-- Whenever `GetEC2Price` succeeds, the resulting store holds, under the
query's cache key, a blob of at least 8 bytes that decodes back to the
returned value. -/
theorem getEC2Price_ok_inv (env : PriceEnv) (now : Nat) (s : Store)
    (a b c d : String) (v : Nat)
    (h : (GetEC2Price env now s a b c d).result = .ok v) :
    ∃ blob mt,
      assocGet (GetEC2Price env now s a b c d).store (cacheFile a b c d) =
        some ⟨blob, mt⟩ ∧ 8 ≤ blob.length ∧ fromLEBytes (blob.take 8) = v := by
  by_cases hmiss : ∀ fd, assocGet s (cacheFile a b c d) = some fd →
      MAX_CACHE_AGE ≤ now - fd.modTime
  · rw [getEC2Price_miss_eval env now s a b c d hmiss] at h ⊢
    exact getEC2PriceMiss_ok_inv env now s a b c d v h
  · push_neg at hmiss
    obtain ⟨fd, hget, hfresh⟩ := hmiss
    obtain ⟨blob, mt⟩ := fd
    by_cases hlen : 8 ≤ blob.length
    · rw [getEC2Price_hit_eval env now s a b c d blob mt hget hfresh hlen] at h ⊢
      simp at h
      exact ⟨blob, mt, hget, hlen, h⟩
    · rw [getEC2Price_hit_short_eval env now s a b c d blob mt hget hfresh hlen] at h
      simp at h


/-! ## Helper lemmas: the `GetSKU` scan -/

/-- The products of the catalog whose four attributes all equal the query's
(specification-side definition, in scan order). -/
def matchingProducts (it t os : String) :
    List (String × Product) → List (String × Product)
  | [] => []
  | (k, p) :: rest =>
    if productMatches it t os p then (k, p) :: matchingProducts it t os rest
    else matchingProducts it t os rest

theorem skuLoop_noMatch (it t os : String) (products : List (String × Product))
    (acc : String) (h : matchingProducts it t os products = []) :
    skuLoop it t os products acc = .ok acc := by
  induction products generalizing acc with
  | nil => rfl
  | cons hd tl ih =>
    obtain ⟨k, p⟩ := hd
    simp only [matchingProducts] at h
    by_cases hm : productMatches it t os p = true
    · rw [if_pos hm] at h
      exact absurd h (by simp)
    · rw [if_neg hm] at h
      simp only [skuLoop]
      rw [if_neg hm]
      exact ih acc h

theorem skuLoop_accPending (it t os : String) (products : List (String × Product))
    (acc : String) (hacc : acc ≠ "")
    (h : matchingProducts it t os products ≠ []) :
    skuLoop it t os products acc = .error .ambiguousMatch := by
  induction products generalizing acc with
  | nil => simp [matchingProducts] at h
  | cons hd tl ih =>
    obtain ⟨k, p⟩ := hd
    simp only [matchingProducts] at h
    by_cases hm : productMatches it t os p = true
    · simp only [skuLoop]
      rw [if_pos hm, if_pos hacc]
    · rw [if_neg hm] at h
      simp only [skuLoop]
      rw [if_neg hm]
      exact ih acc hacc h

theorem skuLoop_single (it t os : String) (products : List (String × Product))
    (k : String) (p : Product)
    (h : matchingProducts it t os products = [(k, p)]) :
    skuLoop it t os products "" = .ok p.SKU := by
  induction products with
  | nil => simp [matchingProducts] at h
  | cons hd tl ih =>
    obtain ⟨k', p'⟩ := hd
    simp only [matchingProducts] at h
    by_cases hm : productMatches it t os p' = true
    · rw [if_pos hm] at h
      obtain ⟨hhd, htl⟩ := List.cons_eq_cons.mp h
      simp only [skuLoop]
      rw [if_pos hm, if_neg (by simp)]
      rw [skuLoop_noMatch it t os tl p'.SKU htl]
      have hp : p' = p := congrArg Prod.snd hhd
      rw [hp]
    · rw [if_neg hm] at h
      simp only [skuLoop]
      rw [if_neg hm]
      exact ih h

theorem skuLoop_multi (it t os : String) (products : List (String × Product))
    (hlen : 2 ≤ (matchingProducts it t os products).length)
    (hne : ∀ pr ∈ matchingProducts it t os products, pr.2.SKU ≠ "") :
    skuLoop it t os products "" = .error .ambiguousMatch := by
  induction products with
  | nil => simp [matchingProducts] at hlen
  | cons hd tl ih =>
    obtain ⟨k, p⟩ := hd
    simp only [matchingProducts] at hlen hne
    by_cases hm : productMatches it t os p = true
    · rw [if_pos hm] at hlen hne
      have hsku : p.SKU ≠ "" := hne (k, p) (List.mem_cons_self _ _)
      have hrest : matchingProducts it t os tl ≠ [] := by
        intro hnil
        rw [hnil] at hlen
        simp at hlen
      simp only [skuLoop]
      rw [if_pos hm, if_neg (by simp)]
      exact skuLoop_accPending it t os tl p.SKU hsku hrest
    · rw [if_neg hm] at hlen hne
      simp only [skuLoop]
      rw [if_neg hm]
      exact ih hlen hne

theorem skuLoop_error_hasNonempty (it t os : String)
    (products : List (String × Product)) (acc : String)
    (h : skuLoop it t os products acc = .error .ambiguousMatch) :
    acc ≠ "" ∨ ∃ pr ∈ matchingProducts it t os products, pr.2.SKU ≠ "" := by
  induction products generalizing acc with
  | nil => simp [skuLoop] at h
  | cons hd tl ih =>
    obtain ⟨k, p⟩ := hd
    simp only [skuLoop] at h
    by_cases hm : productMatches it t os p = true
    · rw [if_pos hm] at h
      by_cases hacc : acc ≠ ""
      · exact Or.inl hacc
      · rw [if_neg hacc] at h
        rcases ih p.SKU h with hp | ⟨pr, hmem, hne⟩
        · refine Or.inr ⟨(k, p), ?_, hp⟩
          simp only [matchingProducts]
          rw [if_pos hm]
          exact List.mem_cons_self _ _
        · refine Or.inr ⟨pr, ?_, hne⟩
          simp only [matchingProducts]
          rw [if_pos hm]
          exact List.mem_cons_of_mem _ hmem
    · rw [if_neg hm] at h
      rcases ih acc h with hp | ⟨pr, hmem, hne⟩
      · exact Or.inl hp
      · refine Or.inr ⟨pr, ?_, hne⟩
        simp only [matchingProducts]
        rw [if_neg hm]
        exact hmem

/-! ## Claim C1 -/

/-- C1 (corrected): the multiplicity policy of `GetSKU`.  Zero products
matching all four attribute predicates yields the empty SKU with no error;
exactly one match yields that product's SKU; two or more matches yield an
`AmbiguousMatch` error provided every matching product carries a non-empty
SKU.  The non-emptiness proviso is the correction: duplicate detection
compares the accumulated SKU against `""`, so matches whose SKU field is
empty can escape it (see the counterexample). -/
theorem getSKU_multiplicity :
    (∀ (o : Offer) (it t os : String),
      matchingProducts it t os o.Products = [] → o.GetSKU it t os = .ok "")
    ∧ (∀ (o : Offer) (it t os k : String) (p : Product),
      matchingProducts it t os o.Products = [(k, p)] →
        o.GetSKU it t os = .ok p.SKU)
    ∧ (∀ (o : Offer) (it t os : String),
      2 ≤ (matchingProducts it t os o.Products).length →
      (∀ pr ∈ matchingProducts it t os o.Products, pr.2.SKU ≠ "") →
        o.GetSKU it t os = .error .ambiguousMatch) :=
  ⟨fun o it t os h => skuLoop_noMatch it t os o.Products "" h,
   fun o it t os k p h => skuLoop_single it t os o.Products k p h,
   fun o it t os hlen hne => skuLoop_multi it t os o.Products hlen hne⟩

/-- A product whose four attributes match the query
(instance type "a", tenancy "b", OS "c") and whose SKU field is empty. -/
def prodEmptySKU : Product :=
  { SKU := "",
    Attributes := [("instanceType", "a"), ("location", "US West (Oregon)"),
                   ("tenancy", "b"), ("operatingSystem", "c")] }

/-- A catalog with two products matching the query, both with empty SKUs. -/
def oTwoEmpty : Offer :=
  { Products := [("K1", prodEmptySKU), ("K2", prodEmptySKU)] }

/-- C1 counterexample: a catalog in which two products match all four
predicates, yet `GetSKU` returns the empty SKU with no error instead of
the `AmbiguousMatch` error the claim requires. -/
theorem getSKU_twoMatches_counterexample :
    2 ≤ (matchingProducts "a" "b" "c" oTwoEmpty.Products).length
    ∧ oTwoEmpty.GetSKU "a" "b" "c" = .ok ""
    ∧ oTwoEmpty.GetSKU "a" "b" "c" ≠ .error .ambiguousMatch := by
  refine ⟨by decide, rfl, ?_⟩
  intro h
  rw [show oTwoEmpty.GetSKU "a" "b" "c" = Except.ok "" from rfl] at h
  exact Except.noConfusion h

/-- A product that does not match query ("a", "b", "c"). -/
def prodOther : Product :=
  { SKU := "OTHER", Attributes := [("instanceType", "zzz")] }

/-- A matching product with SKU "ABC". -/
def prodABC : Product :=
  { SKU := "ABC",
    Attributes := [("instanceType", "a"), ("location", "US West (Oregon)"),
                   ("tenancy", "b"), ("operatingSystem", "c")] }

/-- A matching product with SKU "DEF". -/
def prodDEF : Product :=
  { SKU := "DEF",
    Attributes := [("instanceType", "a"), ("location", "US West (Oregon)"),
                   ("tenancy", "b"), ("operatingSystem", "c")] }

def oZero : Offer := { Products := [("K1", prodOther)] }

def oOne : Offer := { Products := [("K1", prodOther), ("K2", prodABC)] }

def oMulti : Offer := { Products := [("K1", prodABC), ("K2", prodDEF)] }

/-- Witness for C1's amended theorem at concrete catalogs. -/
theorem getSKU_multiplicity_witness :
    oZero.GetSKU "a" "b" "c" = .ok ""
    ∧ oOne.GetSKU "a" "b" "c" = .ok "ABC"
    ∧ oMulti.GetSKU "a" "b" "c" = .error .ambiguousMatch :=
  ⟨getSKU_multiplicity.1 oZero "a" "b" "c" (by decide),
   getSKU_multiplicity.2.1 oOne "a" "b" "c" "K2" prodABC (by decide),
   getSKU_multiplicity.2.2 oMulti "a" "b" "c" (by decide) (by decide)⟩

/-! ## Claim C10 -/

/-- C10 (confirmed): `GetSKU` signals "found" solely through a non-empty
SKU string.  (i) A catalog whose single matching product has an empty SKU
field yields the empty SKU with no error; (ii) if additionally
`Terms[term]` holds nothing under the empty SKU, the full `GetEC2Price`
pipeline then fails with the price-not-found error instead of returning
that product's price; (iii) duplicate detection can only fire when some
matching product has a non-empty SKU. -/
theorem getSKU_emptySKU_edgeCase :
    (∀ (o : Offer) (it t os k : String) (p : Product),
      matchingProducts it t os o.Products = [(k, p)] → p.SKU = "" →
        o.GetSKU it t os = .ok "")
    ∧ (∀ (env : PriceEnv) (now : Nat) (s : Store) (it t os tm : String)
        (o : Offer) (k : String) (p : Product),
      assocGet s (cacheFile it t os tm) = none →
      (GetOffers env.toFetchEnv now s).result = .ok o →
      matchingProducts it t os o.Products = [(k, p)] →
      p.SKU = "" →
      termsFor o tm "" = [] →
        (GetEC2Price env now s it t os tm).result = .error .priceNotFound)
    ∧ (∀ (o : Offer) (it t os : String),
      o.GetSKU it t os = .error .ambiguousMatch →
        ∃ pr ∈ matchingProducts it t os o.Products, pr.2.SKU ≠ "") := by
  refine ⟨?_, ?_, ?_⟩
  · intro o it t os k p h hsku
    have := skuLoop_single it t os o.Products k p h
    rw [hsku] at this
    exact this
  · intro env now s it t os tm o k p hnone hres hmatch hsku htf
    have hmiss : ∀ fd, assocGet s (cacheFile it t os tm) = some fd →
        MAX_CACHE_AGE ≤ now - fd.modTime := by
      intro fd hfd
      rw [hnone] at hfd
      exact absurd hfd (by simp)
    have hgsku : o.GetSKU it t os = .ok "" := by
      have := skuLoop_single it t os o.Products k p hmatch
      rw [hsku] at this
      exact this
    have hpr : o.GetPrice "" tm = .error .priceNotFound := by
      rw [Offer.GetPrice, htf]
      rfl
    rw [getEC2Price_miss_eval env now s it t os tm hmiss, GetEC2PriceMiss,
        missWith_priceErr env now it t os tm _ o "" .priceNotFound hres hgsku hpr]
  · intro o it t os h
    exact (skuLoop_error_hasNonempty it t os o.Products "" h).resolve_left
      (by simp)

/-- A pricing term with one dimension carrying the pair ("USD", "0.956"). -/
def termUSD : Term :=
  { PriceDimensions := [("D1", { PricePerUnit := [("USD", "0.956")] })] }

/-- A catalog whose single matching product has an empty SKU field, while
its prices sit under the products-map key "ABC" that resolution never
reaches. -/
def oEdge : Offer :=
  { Products := [("ABC", prodEmptySKU)],
    Terms := [("OnDemand", [("ABC", [("T1", termUSD)])])] }

def envEdge : PriceEnv :=
  { fetchResult := some [7], decode := fun _ => some oEdge,
    parseFloat := fun _ => none }

/-- Witness for C10 at a concrete catalog and environment. -/
theorem getSKU_emptySKU_edgeCase_witness :
    oEdge.GetSKU "a" "b" "c" = .ok ""
    ∧ (GetEC2Price envEdge 0 [] "a" "b" "c" "OnDemand").result =
        .error .priceNotFound
    ∧ ∃ pr ∈ matchingProducts "a" "b" "c" oMulti.Products, pr.2.SKU ≠ "" :=
  ⟨getSKU_emptySKU_edgeCase.1 oEdge "a" "b" "c" "ABC" prodEmptySKU (by decide) rfl,
   getSKU_emptySKU_edgeCase.2.1 envEdge 0 [] "a" "b" "c" "OnDemand" oEdge "ABC"
     prodEmptySKU (by simp [assocGet]) rfl (by decide) rfl rfl,
   getSKU_emptySKU_edgeCase.2.2 oMulti "a" "b" "c" rfl⟩

/-! ## Helper lemmas: the `GetPrice` triple loop -/

theorem firstPairPrice_none_iff (ppu : List (String × String)) :
    firstPairPrice ppu = none ↔ ppu = [] := by
  cases ppu with
  | nil => simp [firstPairPrice]
  | cons hd tl =>
    obtain ⟨c, v⟩ := hd
    simp [firstPairPrice]

theorem firstDimPrice_none_iff (dims : List (String × PriceDimension)) :
    firstDimPrice dims = none ↔ dimsPairs dims = [] := by
  induction dims with
  | nil => simp [firstDimPrice, dimsPairs]
  | cons hd tl ih =>
    obtain ⟨k, pd⟩ := hd
    simp only [firstDimPrice, dimsPairs]
    cases hpp : firstPairPrice pd.PricePerUnit with
    | some p =>
      have hne : pd.PricePerUnit ≠ [] := by
        intro h0
        rw [h0] at hpp
        exact absurd hpp (by simp [firstPairPrice])
      simp [hne]
    | none =>
      rw [firstPairPrice_none_iff pd.PricePerUnit] at hpp
      simp [hpp, ih]

theorem firstTermPrice_none_iff (terms : List (String × Term)) :
    firstTermPrice terms = none ↔ termsPairs terms = [] := by
  induction terms with
  | nil => simp [firstTermPrice, termsPairs]
  | cons hd tl ih =>
    obtain ⟨k, t⟩ := hd
    simp only [firstTermPrice, termsPairs]
    cases hdp : firstDimPrice t.PriceDimensions with
    | some p =>
      have hne : dimsPairs t.PriceDimensions ≠ [] := by
        intro h0
        rw [← firstDimPrice_none_iff] at h0
        rw [h0] at hdp
        exact Option.noConfusion hdp
      simp [hne]
    | none =>
      rw [firstDimPrice_none_iff t.PriceDimensions] at hdp
      simp [hdp, ih]

theorem firstPairPrice_mem (ppu : List (String × String)) (p : Price)
    (h : firstPairPrice ppu = some p) : (p.Currency, p.Value) ∈ ppu := by
  cases ppu with
  | nil => simp [firstPairPrice] at h
  | cons hd tl =>
    obtain ⟨c, v⟩ := hd
    simp only [firstPairPrice] at h
    obtain rfl := Option.some.inj h
    exact List.mem_cons_self _ _

theorem firstDimPrice_mem (dims : List (String × PriceDimension)) (p : Price)
    (h : firstDimPrice dims = some p) :
    (p.Currency, p.Value) ∈ dimsPairs dims := by
  induction dims with
  | nil => simp [firstDimPrice] at h
  | cons hd tl ih =>
    obtain ⟨k, pd⟩ := hd
    simp only [firstDimPrice] at h
    simp only [dimsPairs]
    cases hpp : firstPairPrice pd.PricePerUnit with
    | some q =>
      rw [hpp] at h
      rw [← Option.some.inj h]
      exact List.mem_append_left _ (firstPairPrice_mem pd.PricePerUnit q hpp)
    | none =>
      rw [hpp] at h
      exact List.mem_append_right _ (ih h)

theorem firstTermPrice_mem (terms : List (String × Term)) (p : Price)
    (h : firstTermPrice terms = some p) :
    (p.Currency, p.Value) ∈ termsPairs terms := by
  induction terms with
  | nil => simp [firstTermPrice] at h
  | cons hd tl ih =>
    obtain ⟨k, t⟩ := hd
    simp only [firstTermPrice] at h
    simp only [termsPairs]
    cases hdp : firstDimPrice t.PriceDimensions with
    | some q =>
      rw [hdp] at h
      rw [← Option.some.inj h]
      exact List.mem_append_left _ (firstDimPrice_mem t.PriceDimensions q hdp)
    | none =>
      rw [hdp] at h
      exact List.mem_append_right _ (ih h)

/-! ## Claim C7 -/

/-- C7 (confirmed): `GetPrice` returns a (currency, price string) pair
that is actually present among the pairs reachable under
`Terms[term][sku]` (taken in iteration order), and it fails — with
`PriceNotFound`, never a panic — exactly when no such pair exists,
including when the term name or the SKU is absent from the nested maps or
when every reachable Term or PriceDimension is empty. -/
theorem getPrice_first_pair :
    (∀ (o : Offer) (sku term c v : String),
      o.GetPrice sku term = .ok ⟨c, v⟩ → (c, v) ∈ allPairs o term sku)
    ∧ (∀ (o : Offer) (sku term : String),
      o.GetPrice sku term = .error .priceNotFound ↔ allPairs o term sku = []) := by
  constructor
  · intro o sku term c v h
    rw [Offer.GetPrice] at h
    cases hft : firstTermPrice (termsFor o term sku) with
    | none => rw [hft] at h; exact absurd h (by simp)
    | some p =>
      rw [hft] at h
      simp only [Except.ok.injEq] at h
      subst h
      exact firstTermPrice_mem (termsFor o term sku) _ hft
  · intro o sku term
    constructor
    · intro h
      rw [Offer.GetPrice] at h
      cases hft : firstTermPrice (termsFor o term sku) with
      | none => exact (firstTermPrice_none_iff (termsFor o term sku)).mp hft
      | some p => rw [hft] at h; exact absurd h (by simp)
    · intro h
      have : firstTermPrice (termsFor o term sku) = none :=
        (firstTermPrice_none_iff (termsFor o term sku)).mpr h
      rw [Offer.GetPrice, this]

/-- Witness for C7: a found pair is among the reachable pairs; an absent
SKU yields `PriceNotFound`. -/
theorem getPrice_first_pair_witness :
    ("USD", "0.956") ∈ allPairs oEdge "OnDemand" "ABC"
    ∧ oEdge.GetPrice "Z" "OnDemand" = .error .priceNotFound :=
  ⟨getPrice_first_pair.1 oEdge "ABC" "OnDemand" "USD" "0.956" rfl,
   (getPrice_first_pair.2 oEdge "Z" "OnDemand").mpr rfl⟩

/-! ## Claim C6 -/

/-- C6 (confirmed): the cached-price encoding round-trips.  `binary.Write`
of a 64-bit value produces an exactly-8-byte little-endian blob, and the
hit-path `binary.Read` decodes it back to the bit-identical value. -/
theorem price_blob_roundtrip :
    ∀ v : Nat, v < 18446744073709551616 →
      (toLEBytes v).length = 8 ∧ binaryReadFloat64 (toLEBytes v) = .ok v :=
  fun v h => ⟨toLEBytes_length v, binaryReadFloat64_toLEBytes v h⟩

/-- Witness for C6 at the bit pattern 4606281698874543309. -/
theorem price_blob_roundtrip_witness :
    (toLEBytes 4606281698874543309).length = 8
    ∧ binaryReadFloat64 (toLEBytes 4606281698874543309) =
        .ok 4606281698874543309 :=
  price_blob_roundtrip 4606281698874543309 (by decide)

/-! ## Claim C8 -/

/-- C8 (confirmed): the per-query cache key is the fixed-length (32
hex-character) MD5 digest of the query fields concatenated without
separators in the order instance class, tenancy, OS, term.  It is a
deterministic function of that concatenation, so equal query tuples get
equal keys, and distinct tuples whose concatenations coincide as strings
collide on the same cache file. -/
theorem cacheKey_concatenation :
    (∀ a b c d a2 b2 c2 d2 : String,
      a ++ b ++ c ++ d = a2 ++ b2 ++ c2 ++ d2 →
        cacheFile a b c d = cacheFile a2 b2 c2 d2)
    ∧ ∀ s : String, (GetMD5Hash s).length = 32 :=
  ⟨fun a b c d a2 b2 c2 d2 h => by rw [cacheFile, cacheFile, h],
   fun s => GetMD5Hash_length s⟩

/-- Witness for C8: the distinct query tuples ("ab","c","x","y") and
("a","bc","x","y") have coinciding concatenations and hence one cache
file; the digest of "abc" has 32 characters. -/
theorem cacheKey_concatenation_witness :
    cacheFile "ab" "c" "x" "y" = cacheFile "a" "bc" "x" "y"
    ∧ (GetMD5Hash "abc").length = 32 :=
  ⟨cacheKey_concatenation.1 "ab" "c" "x" "y" "a" "bc" "x" "y" (by decide),
   cacheKey_concatenation.2 "abc"⟩

/-! ## Helper lemmas: evaluating the branches of `GetOffers` -/

theorem getOffers_fetchFail_eval (env : FetchEnv) (now : Nat) (s : Store)
    (hmiss : ∀ fd, assocGet s offersFile = some fd →
      MAX_CACHE_AGE ≤ now - fd.modTime)
    (hfe : env.fetchResult = none) :
    GetOffers env now s = ⟨.error .fetchFailed, s, 1, 0⟩ := by
  rw [GetOffers]
  cases hs : assocGet s offersFile with
  | none => rw [hfe]
  | some fd =>
    have hstale := hmiss fd hs
    have hnf : ¬ now - fd.modTime < MAX_CACHE_AGE := by omega
    simp only [hnf, if_neg, ite_false]
    rw [hfe]

theorem getOffers_fetchDecodeFail_eval (env : FetchEnv) (now : Nat) (s : Store)
    (body : List Nat)
    (hmiss : ∀ fd, assocGet s offersFile = some fd →
      MAX_CACHE_AGE ≤ now - fd.modTime)
    (hfe : env.fetchResult = some body)
    (hdec : env.decode body = none) :
    GetOffers env now s =
      ⟨.error .malformedCatalog, storeWrite s offersFile ⟨body, now⟩, 1, 1⟩ := by
  rw [GetOffers]
  cases hs : assocGet s offersFile with
  | none =>
    rw [hfe]
    show GetOffersFinish env now s body 1 = _
    rw [GetOffersFinish, hdec]
    rfl
  | some fd =>
    have hstale := hmiss fd hs
    have hnf : ¬ now - fd.modTime < MAX_CACHE_AGE := by omega
    simp only [hnf, if_neg, ite_false]
    rw [hfe]
    show GetOffersFinish env now s body 1 = _
    rw [GetOffersFinish, hdec]
    rfl

theorem getOffers_hit_eval (env : FetchEnv) (now : Nat) (s : Store)
    (fd : FileData) (hget : assocGet s offersFile = some fd)
    (hfresh : now - fd.modTime < MAX_CACHE_AGE) :
    GetOffers env now s = GetOffersFinish env now s fd.bytes 0 := by
  rw [GetOffers, hget]
  simp only [hfresh, if_pos]

/-! ## Claim C2 -/

/-- C2 (confirmed): the query cache hit path.  (i) With a fresh 8-byte
blob stored under the query's derived key, `GetEC2Price` returns that
blob decoded as a little-endian 64-bit value, leaves the store untouched,
and performs zero network fetches, zero catalog decodes and zero
resolution scans.  (ii) Consequently, after any successful call, a second
call made while the stored query blob is still fresh succeeds with the
identical value, again with no fetch, decode or scan. -/
theorem getEC2Price_cacheHit :
    (∀ (env : PriceEnv) (now : Nat) (s : Store) (it t os tm : String)
        (blob : List Nat) (mt : Nat),
      assocGet s (cacheFile it t os tm) = some ⟨blob, mt⟩ →
      now - mt < MAX_CACHE_AGE →
      blob.length = 8 →
        GetEC2Price env now s it t os tm =
          ⟨.ok (fromLEBytes blob), s, 0, 0, 0⟩)
    ∧ (∀ (env : PriceEnv) (now1 now2 : Nat) (s : Store) (it t os tm : String)
        (out1 : PriceOut) (v : Nat) (blob : List Nat) (mt : Nat),
      GetEC2Price env now1 s it t os tm = out1 →
      out1.result = .ok v →
      assocGet out1.store (cacheFile it t os tm) = some ⟨blob, mt⟩ →
      now2 - mt < MAX_CACHE_AGE →
        GetEC2Price env now2 out1.store it t os tm =
          ⟨.ok v, out1.store, 0, 0, 0⟩) := by
  constructor
  · intro env now s it t os tm blob mt hget hfresh hlen
    have htake : blob.take 8 = blob := by
      rw [← hlen]
      exact List.take_length blob
    rw [getEC2Price_hit_eval env now s it t os tm blob mt hget hfresh (by omega),
        htake]
  · intro env now1 now2 s it t os tm out1 v blob mt h1 hres hget hfresh
    subst h1
    obtain ⟨blob2, mt2, hget2, hlen2, hdec2⟩ :=
      getEC2Price_ok_inv env now1 s it t os tm v hres
    rw [hget] at hget2
    have hbm := Option.some.inj hget2
    rw [FileData.mk.injEq] at hbm
    obtain ⟨hb, hm⟩ := hbm
    rw [getEC2Price_hit_eval env now2 _ it t os tm blob mt hget hfresh
        (hb ▸ hlen2)]
    rw [hb, hdec2]

def envHit : PriceEnv :=
  { fetchResult := none, decode := fun _ => none, parseFloat := fun _ => none }

def sHit : Store := [(cacheFile "a" "b" "c" "d", ⟨toLEBytes 42, 0⟩)]

/-- Witness for C2: a concrete fresh cache entry is served twice with no
fetch, decode or scan, identically. -/
theorem getEC2Price_cacheHit_witness :
    GetEC2Price envHit 0 sHit "a" "b" "c" "d" =
      ⟨.ok (fromLEBytes (toLEBytes 42)), sHit, 0, 0, 0⟩
    ∧ GetEC2Price envHit 100 sHit "a" "b" "c" "d" =
      ⟨.ok (fromLEBytes (toLEBytes 42)), sHit, 0, 0, 0⟩ := by
  have h1 := getEC2Price_cacheHit.1 envHit 0 sHit "a" "b" "c" "d"
    (toLEBytes 42) 0 (by simp [sHit, assocGet]) (by decide) (by decide)
  exact ⟨h1,
    getEC2Price_cacheHit.2 envHit 0 100 sHit "a" "b" "c" "d" _
      (fromLEBytes (toLEBytes 42)) (toLEBytes 42) 0 h1 rfl
      (by simp [sHit, assocGet]) (by decide)⟩

/-! ## Claim C3 -/

/-- C3 (confirmed): no negative-result caching.  If `GetEC2Price` takes
the cache-miss path and returns an error (not-found and `PriceNotFound`
are one and the same error in this code, `AmbiguousMatch`, or a
price-parse failure), then the store entry under the query's cache key is
unchanged, and every later call (any environment, any time not before the
failing one) takes the full cache-miss pipeline again. -/
theorem getEC2Price_noNegativeCaching :
    ∀ (env : PriceEnv) (now : Nat) (s : Store) (it t os tm : String) (e : Err),
      (∀ fd, assocGet s (cacheFile it t os tm) = some fd →
        MAX_CACHE_AGE ≤ now - fd.modTime) →
      (GetEC2Price env now s it t os tm).result = .error e →
      assocGet (GetEC2Price env now s it t os tm).store (cacheFile it t os tm) =
        assocGet s (cacheFile it t os tm)
      ∧ ∀ (env2 : PriceEnv) (now2 : Nat), now ≤ now2 →
          GetEC2Price env2 now2 (GetEC2Price env now s it t os tm).store
              it t os tm =
            GetEC2PriceMiss env2 now2 (GetEC2Price env now s it t os tm).store
              it t os tm := by
  intro env now s it t os tm e hmiss herr
  rw [getEC2Price_miss_eval env now s it t os tm hmiss] at herr ⊢
  have hstore := getEC2PriceMiss_error_store env now s it t os tm e herr
  have hkey : assocGet (GetEC2PriceMiss env now s it t os tm).store
      (cacheFile it t os tm) = assocGet s (cacheFile it t os tm) := by
    rw [hstore]
    exact assocGet_GetOffers_store env.toFetchEnv now s it t os tm
  refine ⟨hkey, ?_⟩
  intro env2 now2 hle
  apply getEC2Price_miss_eval
  intro fd hfd
  rw [hkey] at hfd
  have := hmiss fd hfd
  omega

/-- A fetch and decode that produce a catalog with no matching product, so
resolution fails with the price-not-found error. -/
def envErr : PriceEnv :=
  { fetchResult := some [1], decode := fun _ => some oZero,
    parseFloat := fun _ => none }

/-- Witness for C3 at a concrete failing query. -/
theorem getEC2Price_noNegativeCaching_witness :
    assocGet (GetEC2Price envErr 0 [] "a" "b" "c" "d").store
        (cacheFile "a" "b" "c" "d") =
      assocGet ([] : Store) (cacheFile "a" "b" "c" "d")
    ∧ GetEC2Price envErr 5 (GetEC2Price envErr 0 [] "a" "b" "c" "d").store
          "a" "b" "c" "d" =
        GetEC2PriceMiss envErr 5 (GetEC2Price envErr 0 [] "a" "b" "c" "d").store
          "a" "b" "c" "d" := by
  have h := getEC2Price_noNegativeCaching envErr 0 [] "a" "b" "c" "d"
    .priceNotFound (by intro fd hfd; simp [assocGet] at hfd) rfl
  exact ⟨h.1, h.2 envErr 5 (by decide)⟩

/-! ## Claim C4 -/

def envFetchFail : PriceEnv :=
  { fetchResult := none, decode := fun _ => none, parseFloat := fun _ => none }

/-- C4 counterexample: on a cache miss with a failing network fetch,
`GetEC2Price` does not return the error to its caller — it terminates
the process via `log.Fatalf` (modelled as the distinguished `fatal`
outcome). -/
theorem getEC2Price_fatal_counterexample :
    (GetEC2Price envFetchFail 0 [] "a" "b" "c" "d").result = .fatal .fetchFailed
    ∧ (GetEC2Price envFetchFail 0 [] "a" "b" "c" "d").result ≠
        .error .fetchFailed := by
  refine ⟨rfl, ?_⟩
  intro h
  rw [show (GetEC2Price envFetchFail 0 [] "a" "b" "c" "d").result =
      Outcome.fatal .fetchFailed from rfl] at h
  exact Outcome.noConfusion h

/-- C4 (corrected): error propagation around `GetOffers`.  (i) A network
failure is returned by `GetOffers` to its caller unchanged as a
fetch-failure error, with exactly one fetch attempt and no store write;
(ii) a decode failure after a successful fetch is likewise returned
unchanged (the fetched bytes having been written); (iii) but `GetEC2Price`
does not pass a `GetOffers` error on to its own caller — it terminates
the process fatally, without retrying and without writing the query's
cache entry.  By contrast, errors arising after `GetOffers` succeeds are
returned by `GetEC2Price` to its caller unchanged: (iv) a SKU-resolution
error, (v) a price-resolution error, and (vi) a price-parse failure
(surfacing as the invalid-price-format error). -/
theorem getOffers_failure_propagation :
    (∀ (env : FetchEnv) (now : Nat) (s : Store),
      (∀ fd, assocGet s offersFile = some fd →
        MAX_CACHE_AGE ≤ now - fd.modTime) →
      env.fetchResult = none →
        GetOffers env now s = ⟨.error .fetchFailed, s, 1, 0⟩)
    ∧ (∀ (env : FetchEnv) (now : Nat) (s : Store) (body : List Nat),
      (∀ fd, assocGet s offersFile = some fd →
        MAX_CACHE_AGE ≤ now - fd.modTime) →
      env.fetchResult = some body →
      env.decode body = none →
        GetOffers env now s =
          ⟨.error .malformedCatalog, storeWrite s offersFile ⟨body, now⟩, 1, 1⟩)
    ∧ (∀ (env : PriceEnv) (now : Nat) (s : Store) (it t os tm : String)
        (e : Err),
      (∀ fd, assocGet s (cacheFile it t os tm) = some fd →
        MAX_CACHE_AGE ≤ now - fd.modTime) →
      (GetOffers env.toFetchEnv now s).result = .error e →
        GetEC2Price env now s it t os tm =
          ⟨.fatal e, (GetOffers env.toFetchEnv now s).store,
           (GetOffers env.toFetchEnv now s).fetchCount,
           (GetOffers env.toFetchEnv now s).decodeCount, 0⟩)
    ∧ (∀ (env : PriceEnv) (now : Nat) (s : Store) (it t os tm : String)
        (o : Offer) (e : Err),
      (∀ fd, assocGet s (cacheFile it t os tm) = some fd →
        MAX_CACHE_AGE ≤ now - fd.modTime) →
      (GetOffers env.toFetchEnv now s).result = .ok o →
      o.GetSKU it t os = .error e →
        (GetEC2Price env now s it t os tm).result = .error e)
    ∧ (∀ (env : PriceEnv) (now : Nat) (s : Store) (it t os tm : String)
        (o : Offer) (sku : String) (e : Err),
      (∀ fd, assocGet s (cacheFile it t os tm) = some fd →
        MAX_CACHE_AGE ≤ now - fd.modTime) →
      (GetOffers env.toFetchEnv now s).result = .ok o →
      o.GetSKU it t os = .ok sku →
      o.GetPrice sku tm = .error e →
        (GetEC2Price env now s it t os tm).result = .error e)
    ∧ (∀ (env : PriceEnv) (now : Nat) (s : Store) (it t os tm : String)
        (o : Offer) (sku : String) (price : Price),
      (∀ fd, assocGet s (cacheFile it t os tm) = some fd →
        MAX_CACHE_AGE ≤ now - fd.modTime) →
      (GetOffers env.toFetchEnv now s).result = .ok o →
      o.GetSKU it t os = .ok sku →
      o.GetPrice sku tm = .ok price →
      env.parseFloat price.Value = none →
        (GetEC2Price env now s it t os tm).result =
          .error .invalidPriceFormat) := by
  refine ⟨getOffers_fetchFail_eval, getOffers_fetchDecodeFail_eval,
    ?_, ?_, ?_, ?_⟩
  · intro env now s it t os tm e hmiss hres
    rw [getEC2Price_miss_eval env now s it t os tm hmiss, GetEC2PriceMiss,
        missWith_fatal env now it t os tm _ e hres]
  · intro env now s it t os tm o e hmiss hres hsku
    rw [getEC2Price_miss_eval env now s it t os tm hmiss, GetEC2PriceMiss,
        missWith_skuErr env now it t os tm _ o e hres hsku]
  · intro env now s it t os tm o sku e hmiss hres hsku hpr
    rw [getEC2Price_miss_eval env now s it t os tm hmiss, GetEC2PriceMiss,
        missWith_priceErr env now it t os tm _ o sku e hres hsku hpr]
  · intro env now s it t os tm o sku price hmiss hres hsku hpr hpf
    rw [getEC2Price_miss_eval env now s it t os tm hmiss, GetEC2PriceMiss,
        missWith_parseErr env now it t os tm _ o sku price hres hsku hpr hpf]

def envDecodeFail : FetchEnv := { fetchResult := some [3], decode := fun _ => none }

/-- A fetch and decode producing the two-ambiguous-products catalog. -/
def envAmb : PriceEnv :=
  { fetchResult := some [1], decode := fun _ => some oMulti,
    parseFloat := fun _ => none }

/-- A catalog that resolves fully: one matching product with SKU "ABC" and
a price under Terms["OnDemand"]["ABC"]. -/
def oGood : Offer :=
  { Products := [("K1", prodABC)],
    Terms := [("OnDemand", [("ABC", [("T1", termUSD)])])] }

/-- A fetch and decode producing `oGood`, with a price parser that fails. -/
def envParse : PriceEnv :=
  { fetchResult := some [1], decode := fun _ => some oGood,
    parseFloat := fun _ => none }

/-- Witness for C4's amended theorem at concrete environments. -/
theorem getOffers_failure_propagation_witness :
    GetOffers envFetchFail.toFetchEnv 0 [] = ⟨.error .fetchFailed, [], 1, 0⟩
    ∧ GetOffers envDecodeFail 0 [] =
        ⟨.error .malformedCatalog, storeWrite [] offersFile ⟨[3], 0⟩, 1, 1⟩
    ∧ GetEC2Price envFetchFail 0 [] "a" "b" "c" "d" =
        ⟨.fatal .fetchFailed, (GetOffers envFetchFail.toFetchEnv 0 []).store,
         (GetOffers envFetchFail.toFetchEnv 0 []).fetchCount,
         (GetOffers envFetchFail.toFetchEnv 0 []).decodeCount, 0⟩
    ∧ (GetEC2Price envAmb 0 [] "a" "b" "c" "OnDemand").result =
        .error .ambiguousMatch
    ∧ (GetEC2Price envErr 0 [] "a" "b" "c" "d").result =
        .error .priceNotFound
    ∧ (GetEC2Price envParse 0 [] "a" "b" "c" "OnDemand").result =
        .error .invalidPriceFormat :=
  ⟨getOffers_failure_propagation.1 envFetchFail.toFetchEnv 0 []
     (by intro fd hfd; simp [assocGet] at hfd) rfl,
   getOffers_failure_propagation.2.1 envDecodeFail 0 [] [3]
     (by intro fd hfd; simp [assocGet] at hfd) rfl rfl,
   getOffers_failure_propagation.2.2.1 envFetchFail 0 [] "a" "b" "c" "d"
     .fetchFailed (by intro fd hfd; simp [assocGet] at hfd) rfl,
   getOffers_failure_propagation.2.2.2.1 envAmb 0 [] "a" "b" "c" "OnDemand"
     oMulti .ambiguousMatch (by intro fd hfd; simp [assocGet] at hfd) rfl rfl,
   getOffers_failure_propagation.2.2.2.2.1 envErr 0 [] "a" "b" "c" "d"
     oZero "" .priceNotFound (by intro fd hfd; simp [assocGet] at hfd)
     rfl rfl rfl,
   getOffers_failure_propagation.2.2.2.2.2 envParse 0 [] "a" "b" "c"
     "OnDemand" oGood "ABC" ⟨"USD", "0.956"⟩
     (by intro fd hfd; simp [assocGet] at hfd) rfl rfl rfl rfl⟩

/-! ## Claim C5 -/

def envC5 : FetchEnv := { fetchResult := none, decode := fun _ => none }

def sC5 : Store := [(offersFile, ⟨[1, 2, 3], 0⟩)]

/-- C5 (code bug): with fresh catalog bytes in the store, `GetOffers`
performs no network fetch — but, contrary to the claim and to the code's
own "save response to disk" intent, it rewrites the catalog blob on the
cache-hit path too (`ioutil.WriteFile` sits outside the if/else),
refreshing its modification time from 0 to the call time 100. -/
theorem getOffers_cacheHit_rewrite :
    (GetOffers envC5 100 sC5).fetchCount = 0
    ∧ (GetOffers envC5 100 sC5).store = [(offersFile, ⟨[1, 2, 3], 100⟩)]
    ∧ (GetOffers envC5 100 sC5).store ≠ sC5 := by
  refine ⟨rfl, rfl, ?_⟩
  intro h
  rw [show (GetOffers envC5 100 sC5).store =
      [(offersFile, ⟨[1, 2, 3], 100⟩)] from rfl] at h
  exact absurd h (by decide)

/-! ## Claim C9 -/

/-- C9 (confirmed): when the catalog comes from the network and decoding
fails, the fetched bytes have already been persisted under the catalog
key before the `MalformedCatalog` error returns; a later call within the
freshness window is served those same corrupt bytes from the cache (no
fetch) and fails the same way. -/
theorem getOffers_corrupt_bytes_cached :
    ∀ (env : FetchEnv) (now now2 : Nat) (s : Store) (body : List Nat),
      (∀ fd, assocGet s offersFile = some fd →
        MAX_CACHE_AGE ≤ now - fd.modTime) →
      env.fetchResult = some body →
      env.decode body = none →
      now2 - now < MAX_CACHE_AGE →
      GetOffers env now s =
        ⟨.error .malformedCatalog, storeWrite s offersFile ⟨body, now⟩, 1, 1⟩
      ∧ assocGet (storeWrite s offersFile ⟨body, now⟩) offersFile =
          some ⟨body, now⟩
      ∧ GetOffers env now2 (storeWrite s offersFile ⟨body, now⟩) =
          ⟨.error .malformedCatalog,
           storeWrite (storeWrite s offersFile ⟨body, now⟩) offersFile
             ⟨body, now2⟩, 0, 1⟩ := by
  intro env now now2 s body hmiss hfe hdec hfresh
  refine ⟨getOffers_fetchDecodeFail_eval env now s body hmiss hfe hdec,
    assocGet_storeWrite_self s offersFile ⟨body, now⟩, ?_⟩
  rw [getOffers_hit_eval env now2 (storeWrite s offersFile ⟨body, now⟩)
      ⟨body, now⟩ (assocGet_storeWrite_self s offersFile ⟨body, now⟩) hfresh]
  rw [GetOffersFinish, hdec]
  rfl

def envC9 : FetchEnv := { fetchResult := some [9], decode := fun _ => none }

/-- Witness for C9 at a concrete environment. -/
theorem getOffers_corrupt_bytes_cached_witness :
    GetOffers envC9 0 [] =
      ⟨.error .malformedCatalog, storeWrite [] offersFile ⟨[9], 0⟩, 1, 1⟩
    ∧ assocGet (storeWrite [] offersFile ⟨[9], 0⟩) offersFile = some ⟨[9], 0⟩
    ∧ GetOffers envC9 10 (storeWrite [] offersFile ⟨[9], 0⟩) =
        ⟨.error .malformedCatalog,
         storeWrite (storeWrite [] offersFile ⟨[9], 0⟩) offersFile
           ⟨[9], 10⟩, 0, 1⟩ :=
  getOffers_corrupt_bytes_cached envC9 0 10 [] [9]
    (by intro fd hfd; simp [assocGet] at hfd) rfl rfl (by decide)

end EC2Pricing
